import Mathlib

/-!
Shallow embedding of the pgnotes TUI note manager (Rust), covering the
in-memory application state (src/app/state.rs), the key-event dispatch
(src/app/events.rs), the external-edit flow
(edit_note_in_external_editor in src/app/events.rs and src/event.rs),
the editor wrapper (src/app/editor.rs) and the storage layer
(src/app/db.rs, a Postgres table with a UNIQUE constraint on title).

Machine strings are Lean `String`s; the Rust `str` primitives used by the
program (`trim`, `split(',')`, byte-lexicographic ordering, `push`/`pop`)
are re-implemented structurally below so that the kernel can evaluate them.
The stable Rust `sort_by` is embedded as a stable insertion sort: the output
of any stable sort under a total preorder is the same list, so this is
observationally the function the source computes.

The dispatch in src/app/events.rs is a newer snapshot than the state
module in src/app/state.rs: it also uses a search query, an
active/archived view mode, a preview scroll offset and an `archived` note
flag whose `state.rs` definitions are not in the repository.  Those few
pieces are modelled from the spec where marked; everything else is
translated directly from the source.
-/

namespace PgNotes

/-- Rust `char::is_whitespace` restricted to the ASCII whitespace actually
relevant to note titles and tags; coincides with Lean `Char.isWhitespace`. -/
def isWs (c : Char) : Bool := c.isWhitespace

/-- Rust `str::trim`: remove leading and trailing whitespace (on the
character list of the string). -/
def trimChars (s : List Char) : List Char :=
  ((s.dropWhile isWs).reverse.dropWhile isWs).reverse

/-- Rust `str::trim` on `String`. -/
def rustTrim (s : String) : String := ⟨trimChars s.data⟩

/-- Rust `str::split(',')` on a character list: `"a,,b"` gives
`["a", "", "b"]` and the empty string gives `[""]`. -/
def splitComma : List Char → List (List Char)
  | [] => [[]]
  | x :: xs =>
    if x = ',' then [] :: splitComma xs
    else
      match splitComma xs with
      | [] => [[x]]
      | y :: ys => (x :: y) :: ys

/-- Rust `str::split(',')` on `String`. -/
def rustSplitComma (s : String) : List String := (splitComma s.data).map String.mk

/-- Rust `String::pop`: drop the last character (no-op on the empty string). -/
def rustPop (s : String) : String := ⟨s.data.dropLast⟩

/-- Rust `String::push`. -/
def rustPush (s : String) (c : Char) : String := ⟨s.data ++ [c]⟩

/-- Rust `Ord` on `str`: byte-lexicographic order of the UTF-8 encoding,
which equals code-point-lexicographic order on the character lists. -/
def lexLe : List Char → List Char → Bool
  | [], _ => true
  | _ :: _, [] => false
  | a :: as, b :: bs =>
    if a.toNat < b.toNat then true
    else if b.toNat < a.toNat then false
    else lexLe as bs

/-- String comparison used by `sort_by(|a, b| a.title.cmp(&b.title))`. -/
def strLe (a b : String) : Bool := lexLe a.data b.data

/-- Stable insertion of `a` into a sorted list: `a` goes before the first
element it compares `le` to, so earlier elements stay before equal later
ones, as in the stable Rust `sort_by`. -/
def insertSorted (le : α → α → Bool) (a : α) : List α → List α
  | [] => [a]
  | b :: bs => if le a b then a :: b :: bs else b :: insertSorted le a bs

/-- Stable sort (embeds Rust `slice::sort_by`, which is a stable sort:
for a total preorder every stable sort returns this same list). -/
def stableSort (le : α → α → Bool) : List α → List α
  | [] => []
  | a :: as => insertSorted le a (stableSort le as)

/-- A note row as fetched from storage (src/app/state.rs `Note`).
The `archived` flag is the boolean lifecycle flag of the data
model; it is read by the `'x'` dispatch arm of src/app/events.rs, whose
matching `state.rs` snapshot is not in the repository.
Modelled from the spec: `archived` (boolean lifecycle flag). -/
structure Note where
  id : Int
  title : String
  content : String
  tags : List String
  archived : Bool
  deriving DecidableEq, Repr

/-- Tag filter variants (src/app/state.rs `TagFilter`). -/
inductive TagFilter where
  | All : TagFilter
  | Untagged : TagFilter
  | Specific : String → TagFilter
  deriving DecidableEq, Repr

/-- `Display` for `TagFilter` (src/app/state.rs). -/
def tagFilterDisplay : TagFilter → String
  | .All => "All Notes"
  | .Untagged => "Untagged"
  | .Specific t => "#" ++ t

/-- Input modes (src/app/state.rs `InputMode`, plus the `Searching` mode
matched by src/app/events.rs, whose `state.rs` snapshot is newer than the
one in the repository). -/
inductive InputMode where
  | Normal | EditingFilename | EditingTags | ConfirmingDelete
  | RenamingScript | SelectingTagFilter | ShowHelp | Searching
  deriving DecidableEq, Repr

/-- Active/archived view toggle used by the `'v'` and `'x'` arms of
src/app/events.rs. Modelled from the spec: show-archived-only /
show-active-only view selector. -/
inductive ViewMode where
  | Active | Archived
  deriving DecidableEq, Repr

/-- The application state (src/app/state.rs `AppState`).  `list_state` and
`filter_list_state` keep only the ratatui `ListState` selection (the render
offset is out of scope).  `search_query`, `view_mode` and `preview_scroll`
are fields used by src/app/events.rs whose declarations are in a newer
`state.rs` than the one in the repository. Modelled from the spec: `search_query`
(free-text search buffer), `view_mode`, `preview_scroll`
(previewScrollOffset). -/
structure AppState where
  all_notes : List Note
  notes : List Note
  list_state : Option Nat
  status_message : String
  script_content_preview : String
  input_mode : InputMode
  filename_input : String
  help_message : String
  editor_cmd : String
  active_filter : TagFilter
  available_filters : List TagFilter
  filter_list_state : Option Nat
  search_query : String
  view_mode : ViewMode
  preview_scroll : Nat
  deriving DecidableEq, Repr

/-- `AppState::set_status`. -/
def set_status (s : AppState) (m : String) : AppState :=
  { s with status_message := m }

/-- `AppState::get_selected_note`. -/
def get_selected_note (s : AppState) : Option Note :=
  match s.list_state with
  | none => none
  | some i => s.notes[i]?

/-- `AppState::update_preview`. -/
def update_preview (s : AppState) : AppState :=
  match get_selected_note s with
  | some note => { s with script_content_preview := note.content }
  | none => { s with script_content_preview := "No notes found." }

/-- The filter predicate of `AppState::apply_current_filter`. -/
def filterPred (f : TagFilter) (n : Note) : Bool :=
  match f with
  | .All => true
  | .Untagged => n.tags.isEmpty
  | .Specific tag => n.tags.contains tag

/-- `AppState::apply_current_filter`: filter `all_notes` by the active
filter, then sort by title (src/app/state.rs lines 108-121; this snapshot
applies no search narrowing and no view-mode narrowing). -/
def apply_current_filter (s : AppState) : AppState :=
  { s with
    notes := stableSort (fun a b => strLe a.title b.title)
      (s.all_notes.filter (filterPred s.active_filter)) }

/-- `AppState::refresh_notes`, with the `db.get_all_notes()` result passed
in explicitly (src/app/state.rs lines 82-106). -/
def refresh_notes (fetch : Except String (List Note)) (s : AppState) : AppState :=
  match fetch with
  | .ok fetched_notes =>
    let s1 := apply_current_filter { s with all_notes := fetched_notes }
    let valid_selection_exists : Bool :=
      match s1.list_state with
      | some selected_index => selected_index < s1.notes.length
      | none => false
    let s2 :=
      if valid_selection_exists then s1
      else if !s1.notes.isEmpty then { s1 with list_state := some 0 }
      else { s1 with list_state := none }
    update_preview s2
  | .error e => set_status s ("DB Error: " ++ e)

/-- `AppState::next` (src/app/state.rs lines 192-208). -/
def next (s : AppState) : AppState :=
  if s.notes.isEmpty then s
  else
    let i :=
      match s.list_state with
      | some i => if i ≥ s.notes.length - 1 then 0 else i + 1
      | none => 0
    update_preview { s with list_state := some i }

/-- `AppState::previous` (src/app/state.rs lines 210-226). -/
def previous (s : AppState) : AppState :=
  if s.notes.isEmpty then s
  else
    let i :=
      match s.list_state with
      | some i => if i = 0 then s.notes.length - 1 else i - 1
      | none => 0
    update_preview { s with list_state := some i }

/-- `AppState::next_filter`. -/
def next_filter (s : AppState) : AppState :=
  if s.available_filters.isEmpty then s
  else
    let i :=
      match s.filter_list_state with
      | some i => if i ≥ s.available_filters.length - 1 then 0 else i + 1
      | none => 0
    { s with filter_list_state := some i }

/-- `AppState::previous_filter`. -/
def previous_filter (s : AppState) : AppState :=
  if s.available_filters.isEmpty then s
  else
    let i :=
      match s.filter_list_state with
      | some i => if i = 0 then s.available_filters.length - 1 else i - 1
      | none => 0
    { s with filter_list_state := some i }

/-- `AppState::open_tag_selector`: collect the distinct non-empty tags,
sort them, and build the filter options list (src/app/state.rs; the
HashSet-then-sort of the source yields the sorted duplicate-free list). -/
def open_tag_selector (s : AppState) : AppState :=
  let unique_tags := ((s.all_notes.map Note.tags).flatten.filter (fun t => t ≠ "")).eraseDups
  let sorted_tags := stableSort strLe unique_tags
  { s with
    available_filters := [TagFilter.All, TagFilter.Untagged] ++ sorted_tags.map TagFilter.Specific,
    input_mode := .SelectingTagFilter,
    filter_list_state := some 0,
    status_message := "Select tag to filter. [Enter] confirm, [Esc] cancel." }

/-- `AppState::toggle_view_mode`. Modelled from the spec: flips between
the active-notes and archived-notes views (the method is called by the
`'v'` arm of src/app/events.rs but its body is in a newer `state.rs`). -/
def toggle_view_mode (s : AppState) : AppState :=
  { s with view_mode := match s.view_mode with | .Active => .Archived | .Archived => .Active }

/-- `AppState::scroll_preview_down`. Modelled from the spec: advances the
preview scroll offset (body missing from the `state.rs` in the repository). -/
def scroll_preview_down (s : AppState) : AppState :=
  { s with preview_scroll := s.preview_scroll + 1 }

/-- `AppState::scroll_preview_up`. Modelled from the spec: moves the
preview scroll offset back, saturating at zero. -/
def scroll_preview_up (s : AppState) : AppState :=
  { s with preview_scroll := s.preview_scroll - 1 }

/-- The storage state: the `notes` table of src/app/db.rs (schema:
`id SERIAL PRIMARY KEY, title TEXT UNIQUE NOT NULL, content TEXT,
tags TEXT[]`).  `next_id` plays the SERIAL sequence. -/
structure Db where
  rows : List Note
  next_id : Int
  deriving DecidableEq, Repr

/-- `Database::get_all_notes` (a plain SELECT; succeeds on the model
connection). -/
def get_all_notes (db : Db) : Except String (List Note) := .ok db.rows

/-- The error string produced by the UNIQUE constraint on `title`. -/
def dupTitleError : String := "duplicate key value violates unique constraint"

/-- `Database::create_note`: INSERT of a row with empty content and empty
tags; fails when the UNIQUE constraint on `title` is violated. -/
def create_note (db : Db) (title : String) : Except String Db :=
  if db.rows.any (fun n => n.title = title) then .error dupTitleError
  else .ok { rows := db.rows ++ [{ id := db.next_id, title := title, content := "",
                                   tags := [], archived := false }],
             next_id := db.next_id + 1 }

/-- `Database::update_note_content`: UPDATE of the row with the given id. -/
def update_note_content (db : Db) (id : Int) (content : String) : Except String Db :=
  .ok { db with rows := db.rows.map (fun n => if n.id = id then { n with content := content } else n) }

/-- `Database::update_note_tags`. -/
def update_note_tags (db : Db) (id : Int) (tags : List String) : Except String Db :=
  .ok { db with rows := db.rows.map (fun n => if n.id = id then { n with tags := tags } else n) }

/-- `Database::rename_note`: UPDATE of `title`; fails when another row
already holds the new title (UNIQUE constraint). -/
def rename_note (db : Db) (id : Int) (new_title : String) : Except String Db :=
  if db.rows.any (fun n => n.title = new_title ∧ n.id ≠ id) then .error dupTitleError
  else .ok { db with rows := db.rows.map (fun n => if n.id = id then { n with title := new_title } else n) }

/-- `Database::delete_note`. -/
def delete_note (db : Db) (id : Int) : Except String Db :=
  .ok { db with rows := db.rows.filter (fun n => n.id ≠ id) }

/-- `Database::update_archive_status` (the UPDATE issued by the `'x'` arm
of src/app/events.rs; the column is in the newer schema snapshot). -/
def update_archive_status (db : Db) (id : Int) (archived : Bool) : Except String Db :=
  .ok { db with rows := db.rows.map (fun n => if n.id = id then { n with archived := archived } else n) }

/-- External effects of one edit flow, resolved ahead of time: the result
of `fs::write`, of `Command::status` for the editor process (`.error` is a
spawn/launch failure, `.ok b` an exit with success flag `b`), and of
`fs::read_to_string` on the artifact after the editor ran (its content is
whatever the external editor left behind). -/
structure EditOracle where
  write_result : Except String Unit
  cmd_status : Except String Bool
  read_result : Except String String
  deriving Repr

/-- `open_editor` (src/app/editor.rs): runs the editor command and maps a
launch failure to `false`, a finished process to its exit-success flag.
The terminal raw-mode plumbing around the call is out of scope. -/
def open_editor (cmd_status : Except String Bool) : Bool :=
  match cmd_status with
  | .ok s => s
  | .error _ => false

/-- Outcome of one `edit_note_in_external_editor` call: final app and db
state, the `io::Result<()>` (`.error` = a `?` propagated out), and whether
`fs::write` created the artifact and `fs::remove_file` was reached. -/
structure EditFlowResult where
  app : AppState
  db : Db
  ret : Except String Unit
  temp_written : Bool
  temp_removed : Bool
  deriving Repr

/-- `edit_note_in_external_editor` (src/app/events.rs lines 10-41, same
control flow as src/event.rs lines 12-50): write the selected note
content to the temp artifact, run the editor, on success read the artifact
back and UPDATE the content, otherwise set an error status; then remove
the artifact and refresh.  Each `?` is an early return that skips the
remaining steps. -/
def edit_note_in_external_editor (o : EditOracle) (app : AppState) (db : Db) :
    EditFlowResult :=
  match get_selected_note app with
  | none => { app := app, db := db, ret := .ok (), temp_written := false, temp_removed := false }
  | some n =>
    match o.write_result with
    | .error e =>
      { app := app, db := db, ret := .error e, temp_written := false, temp_removed := false }
    | .ok () =>
      let success := open_editor o.cmd_status
      if success then
        match o.read_result with
        | .error e =>
          { app := app, db := db, ret := .error e, temp_written := true, temp_removed := false }
        | .ok new_content =>
          let (app1, db1) :=
            match update_note_content db n.id new_content with
            | .error e => (set_status app ("Error saving note: " ++ e), db)
            | .ok db2 => (set_status app "Note saved.", db2)
          let app2 := refresh_notes (get_all_notes db1) app1
          { app := app2, db := db1, ret := .ok (), temp_written := true, temp_removed := true }
      else
        let app1 := set_status app "Editor exited with error."
        let app2 := refresh_notes (get_all_notes db) app1
        { app := app2, db := db, ret := .ok (), temp_written := true, temp_removed := true }

/-- The key codes distinguished by the dispatch (crossterm `KeyCode`);
`Other` stands for every remaining code. -/
inductive KeyCode where
  | Char : Char → KeyCode
  | Enter | Esc | Backspace | Up | Down | Other
  deriving DecidableEq, Repr

/-- A key event: code plus the CONTROL modifier bit consulted by the
`'j'`/`'k'` arms. -/
structure KeyEvent where
  code : KeyCode
  ctrl : Bool
  deriving DecidableEq, Repr

/-- Result of `handle_key_event`: `ret` is the `io::Result<bool>` of the
source (`.ok false` = quit, `.error` = a propagated io error). -/
structure HandleResult where
  app : AppState
  db : Db
  ret : Except String Bool
  deriving Repr

/-- Parsing of the tag-edit buffer (src/app/events.rs lines 229-234):
split on comma, trim each piece, drop the empty pieces. -/
def parse_tags_input (input : String) : List String :=
  ((rustSplitComma input).map rustTrim).filter (fun s => s ≠ "")

/-- Dispatch for `InputMode::Normal` (src/app/events.rs lines 50-161). -/
def handleNormal (o : EditOracle) (key : KeyEvent) (app : AppState) (db : Db) :
    HandleResult :=
  match key.code with
  | .Char c =>
    if c = 'q' then { app := app, db := db, ret := .ok false }
    else if c = 'j' then
      let app1 := if key.ctrl then scroll_preview_down app else next app
      { app := app1, db := db, ret := .ok true }
    else if c = 'k' then
      let app1 := if key.ctrl then scroll_preview_up app else previous app
      { app := app1, db := db, ret := .ok true }
    else if c = 'e' then
      let r := edit_note_in_external_editor o app db
      { app := r.app, db := r.db,
        ret := match r.ret with | .ok () => .ok true | .error e => .error e }
    else if c = 'a' then
      let app1 := set_status { app with input_mode := .EditingFilename, filename_input := "" }
        "Enter new note title. Press [Enter] to confirm, [Esc] to cancel."
      { app := app1, db := db, ret := .ok true }
    else if c = 'd' then
      let app1 :=
        match get_selected_note app with
        | some n =>
          set_status { app with input_mode := .ConfirmingDelete }
            ("Delete \x27" ++ n.title ++ "\x27? (y/n)")
        | none => set_status app "No note selected to delete."
      { app := app1, db := db, ret := .ok true }
    else if c = 'r' then
      let app1 :=
        match get_selected_note app with
        | some n =>
          set_status { app with input_mode := .RenamingScript, filename_input := n.title }
            "Enter new title. Press [Enter] to confirm, [Esc] to cancel."
        | none => set_status app "No note selected to rename."
      { app := app1, db := db, ret := .ok true }
    else if c = 'x' then
      match get_selected_note app with
      | some n =>
        let new_status := !n.archived
        match update_archive_status db n.id new_status with
        | .ok db1 =>
          let action := if new_status then "Archived" else "Unarchived"
          let app1 := set_status app ("Note \x27" ++ n.title ++ "\x27 " ++ action ++ ".")
          let app2 := refresh_notes (get_all_notes db1) app1
          { app := app2, db := db1, ret := .ok true }
        | .error e =>
          { app := set_status app ("Error updating archive status: " ++ e), db := db,
            ret := .ok true }
      | none => { app := app, db := db, ret := .ok true }
    else if c = 'v' then
      let app1 := apply_current_filter (toggle_view_mode app)
      let app2 := if !app1.notes.isEmpty then { app1 with list_state := some 0 } else app1
      let app3 := update_preview app2
      let view_name :=
        match app3.view_mode with
        | .Active => "Active Notes"
        | .Archived => "Archived Notes"
      { app := set_status app3 ("Switched to " ++ view_name), db := db, ret := .ok true }
    else if c = 't' then
      let app1 :=
        match get_selected_note app with
        | some n =>
          set_status { app with input_mode := .EditingTags,
                                filename_input := String.intercalate ", " n.tags }
            "Edit tags (comma separated). [Enter] save, [Esc] cancel."
        | none => set_status app "No note selected."
      { app := app1, db := db, ret := .ok true }
    else if c = 'T' then
      { app := open_tag_selector app, db := db, ret := .ok true }
    else if c = '/' then
      let app1 := set_status { app with input_mode := .Searching }
        "Search mode: Type to filter, [Enter] to keep filter, [Esc] to clear."
      { app := app1, db := db, ret := .ok true }
    else if c = '?' then
      { app := { app with input_mode := .ShowHelp }, db := db, ret := .ok true }
    else { app := app, db := db, ret := .ok true }
  | .Enter =>
    let r := edit_note_in_external_editor o app db
    { app := r.app, db := r.db,
      ret := match r.ret with | .ok () => .ok true | .error e => .error e }
  | .Down => { app := scroll_preview_down app, db := db, ret := .ok true }
  | .Up => { app := scroll_preview_up app, db := db, ret := .ok true }
  | _ => { app := app, db := db, ret := .ok true }

/-- Dispatch for `InputMode::Searching` (src/app/events.rs lines 163-189). -/
def handleSearching (key : KeyEvent) (app : AppState) (db : Db) : HandleResult :=
  match key.code with
  | .Enter =>
    let app1 := set_status { app with input_mode := .Normal }
      ("Search applied: \x27" ++ app.search_query ++ "\x27")
    { app := app1, db := db, ret := .ok true }
  | .Esc =>
    let app1 := apply_current_filter { app with search_query := "" }
    let app2 := set_status { app1 with input_mode := .Normal } "Search cleared."
    let app3 := if !app2.notes.isEmpty then { app2 with list_state := some 0 } else app2
    { app := app3, db := db, ret := .ok true }
  | .Backspace =>
    let app1 := apply_current_filter { app with search_query := rustPop app.search_query }
    { app := app1, db := db, ret := .ok true }
  | .Char c =>
    let app1 := apply_current_filter { app with search_query := rustPush app.search_query c }
    { app := app1, db := db, ret := .ok true }
  | _ => { app := app, db := db, ret := .ok true }

/-- Dispatch for `InputMode::EditingFilename` (src/app/events.rs lines
191-225): on Enter, create the note, refresh, jump to it and immediately
enter the external edit flow. -/
def handleEditingFilename (o : EditOracle) (key : KeyEvent) (app : AppState) (db : Db) :
    HandleResult :=
  match key.code with
  | .Enter =>
    let title := rustTrim app.filename_input
    if title = "" then
      { app := set_status { app with input_mode := .Normal } "New note cancelled.",
        db := db, ret := .ok true }
    else
      match create_note db title with
      | .ok db1 =>
        let app1 := set_status app ("Note \x27" ++ title ++ "\x27 created.")
        let app2 := refresh_notes (get_all_notes db1) app1
        match app2.notes.findIdx? (fun n => n.title = title) with
        | some idx =>
          let app3 := update_preview { app2 with list_state := some idx }
          let r := edit_note_in_external_editor o app3 db1
          match r.ret with
          | .error e => { app := r.app, db := r.db, ret := .error e }
          | .ok () =>
            { app := { r.app with input_mode := .Normal }, db := r.db, ret := .ok true }
        | none =>
          { app := { app2 with input_mode := .Normal }, db := db1, ret := .ok true }
      | .error e =>
        { app := { set_status app ("Error creating note: " ++ e) with input_mode := .Normal },
          db := db, ret := .ok true }
  | .Esc =>
    { app := set_status { app with input_mode := .Normal } "New note cancelled.",
      db := db, ret := .ok true }
  | .Backspace =>
    { app := { app with filename_input := rustPop app.filename_input }, db := db, ret := .ok true }
  | .Char c =>
    { app := { app with filename_input := rustPush app.filename_input c }, db := db, ret := .ok true }
  | _ => { app := app, db := db, ret := .ok true }

/-- Dispatch for `InputMode::EditingTags` (src/app/events.rs lines
227-258): on Enter, parse the buffer and UPDATE the tags of the selected note. -/
def handleEditingTags (key : KeyEvent) (app : AppState) (db : Db) : HandleResult :=
  match key.code with
  | .Enter =>
    let tags := parse_tags_input app.filename_input
    let (app1, db1) :=
      match get_selected_note app with
      | some n =>
        match update_note_tags db n.id tags with
        | .ok db2 =>
          let a := set_status app "Tags updated."
          (refresh_notes (get_all_notes db2) a, db2)
        | .error e => (set_status app ("Error updating tags: " ++ e), db)
      | none => (app, db)
    { app := { app1 with input_mode := .Normal }, db := db1, ret := .ok true }
  | .Esc =>
    { app := set_status { app with input_mode := .Normal } "Tag editing cancelled.",
      db := db, ret := .ok true }
  | .Backspace =>
    { app := { app with filename_input := rustPop app.filename_input }, db := db, ret := .ok true }
  | .Char c =>
    { app := { app with filename_input := rustPush app.filename_input c }, db := db, ret := .ok true }
  | _ => { app := app, db := db, ret := .ok true }

/-- Dispatch for `InputMode::ConfirmingDelete` (src/app/events.rs lines
259-278). -/
def handleConfirmingDelete (key : KeyEvent) (app : AppState) (db : Db) : HandleResult :=
  match key.code with
  | .Char c =>
    if c = 'y' then
      let (app1, db1) :=
        match get_selected_note app with
        | some n =>
          match delete_note db n.id with
          | .ok db2 =>
            let a := set_status app ("Note \x27" ++ n.title ++ "\x27 deleted.")
            (refresh_notes (get_all_notes db2) a, db2)
          | .error e => (set_status app ("Error deleting note: " ++ e), db)
        | none => (app, db)
      { app := { app1 with input_mode := .Normal }, db := db1, ret := .ok true }
    else if c = 'n' then
      { app := set_status { app with input_mode := .Normal } "Deletion cancelled.",
        db := db, ret := .ok true }
    else { app := app, db := db, ret := .ok true }
  | .Esc =>
    { app := set_status { app with input_mode := .Normal } "Deletion cancelled.",
      db := db, ret := .ok true }
  | _ => { app := app, db := db, ret := .ok true }

/-- Dispatch for `InputMode::RenamingScript` (src/app/events.rs lines
279-315). -/
def handleRenaming (key : KeyEvent) (app : AppState) (db : Db) : HandleResult :=
  match key.code with
  | .Enter =>
    let new_title := rustTrim app.filename_input
    if new_title = "" then
      { app := set_status { app with input_mode := .Normal } "Rename cancelled.",
        db := db, ret := .ok true }
    else
      let (app1, db1) :=
        match get_selected_note app with
        | some n =>
          match rename_note db n.id new_title with
          | .ok db2 =>
            let a1 := set_status app "Note renamed."
            let a2 := refresh_notes (get_all_notes db2) a1
            let a3 : AppState :=
              match a2.notes.findIdx? (fun (m : Note) => m.title = new_title) with
              | some idx => { a2 with list_state := some idx }
              | none => a2
            (a3, db2)
          | .error e => (set_status app ("Error renaming note: " ++ e), db)
        | none => (app, db)
      { app := { app1 with input_mode := .Normal }, db := db1, ret := .ok true }
  | .Esc =>
    { app := set_status { app with input_mode := .Normal } "Rename cancelled.",
      db := db, ret := .ok true }
  | .Backspace =>
    { app := { app with filename_input := rustPop app.filename_input }, db := db, ret := .ok true }
  | .Char c =>
    { app := { app with filename_input := rustPush app.filename_input c }, db := db, ret := .ok true }
  | _ => { app := app, db := db, ret := .ok true }

/-- Dispatch for `InputMode::SelectingTagFilter` (src/app/events.rs lines
317-342). -/
def handleSelectingTagFilter (key : KeyEvent) (app : AppState) (db : Db) : HandleResult :=
  match key.code with
  | .Char c =>
    if c = 'j' then { app := next_filter app, db := db, ret := .ok true }
    else if c = 'k' then { app := previous_filter app, db := db, ret := .ok true }
    else if c = 'q' then
      { app := set_status { app with input_mode := .Normal } "Filter cancelled.",
        db := db, ret := .ok true }
    else { app := app, db := db, ret := .ok true }
  | .Enter =>
    let app1 :=
      match app.filter_list_state with
      | some idx =>
        match app.available_filters[idx]? with
        | some filter =>
          let a := apply_current_filter { app with active_filter := filter }
          let a :=
            if !a.notes.isEmpty then { a with list_state := some 0 }
            else { a with list_state := none }
          let a := update_preview a
          set_status a ("Filter applied: " ++ tagFilterDisplay filter)
        | none => app
      | none => app
    { app := { app1 with input_mode := .Normal }, db := db, ret := .ok true }
  | .Esc =>
    { app := set_status { app with input_mode := .Normal } "Filter cancelled.",
      db := db, ret := .ok true }
  | _ => { app := app, db := db, ret := .ok true }

/-- Dispatch for `InputMode::ShowHelp` (src/app/events.rs lines 343-348). -/
def handleShowHelp (key : KeyEvent) (app : AppState) (db : Db) : HandleResult :=
  match key.code with
  | .Char c =>
    if c = 'q' ∨ c = '?' then { app := { app with input_mode := .Normal }, db := db, ret := .ok true }
    else { app := app, db := db, ret := .ok true }
  | .Esc => { app := { app with input_mode := .Normal }, db := db, ret := .ok true }
  | _ => { app := app, db := db, ret := .ok true }

/-- `handle_key_event` (src/app/events.rs lines 43-351): dispatch on the
current input mode. -/
def handle_key_event (o : EditOracle) (key : KeyEvent) (app : AppState) (db : Db) :
    HandleResult :=
  match app.input_mode with
  | .Normal => handleNormal o key app db
  | .Searching => handleSearching key app db
  | .EditingFilename => handleEditingFilename o key app db
  | .EditingTags => handleEditingTags key app db
  | .ConfirmingDelete => handleConfirmingDelete key app db
  | .RenamingScript => handleRenaming key app db
  | .SelectingTagFilter => handleSelectingTagFilter key app db
  | .ShowHelp => handleShowHelp key app db

/-- The selection invariant of the spec: the selection is `none` exactly
when the displayed list is empty, and otherwise an in-bounds index. -/
def selection_invariant (s : AppState) : Bool :=
  match s.list_state with
  | none => s.notes.isEmpty
  | some i => decide (i < s.notes.length)

/-- Whether a key event lands in the `_ => {}` default arm of the current
dispatch of the mode in src/app/events.rs (no arm of the mode handles it). -/
def is_fallthrough (mode : InputMode) (key : KeyEvent) : Bool :=
  match mode, key.code with
  | .Normal, .Char c =>
    !(c = 'q' ∨ c = 'j' ∨ c = 'k' ∨ c = 'e' ∨ c = 'a' ∨ c = 'd' ∨ c = 'r' ∨ c = 'x' ∨
      c = 'v' ∨ c = 't' ∨ c = 'T' ∨ c = '/' ∨ c = '?')
  | .Normal, .Enter => false
  | .Normal, .Down => false
  | .Normal, .Up => false
  | .Normal, _ => true
  | .Searching, .Enter => false
  | .Searching, .Esc => false
  | .Searching, .Backspace => false
  | .Searching, .Char _ => false
  | .Searching, _ => true
  | .EditingFilename, .Enter => false
  | .EditingFilename, .Esc => false
  | .EditingFilename, .Backspace => false
  | .EditingFilename, .Char _ => false
  | .EditingFilename, _ => true
  | .EditingTags, .Enter => false
  | .EditingTags, .Esc => false
  | .EditingTags, .Backspace => false
  | .EditingTags, .Char _ => false
  | .EditingTags, _ => true
  | .ConfirmingDelete, .Char c => !(c = 'y' ∨ c = 'n')
  | .ConfirmingDelete, .Esc => false
  | .ConfirmingDelete, _ => true
  | .RenamingScript, .Enter => false
  | .RenamingScript, .Esc => false
  | .RenamingScript, .Backspace => false
  | .RenamingScript, .Char _ => false
  | .RenamingScript, _ => true
  | .SelectingTagFilter, .Char c => !(c = 'j' ∨ c = 'k' ∨ c = 'q')
  | .SelectingTagFilter, .Enter => false
  | .SelectingTagFilter, .Esc => false
  | .SelectingTagFilter, _ => true
  | .ShowHelp, .Char c => !(c = 'q' ∨ c = '?')
  | .ShowHelp, .Esc => false
  | .ShowHelp, _ => true

/-- Concrete note used by the witnesses. -/
def noteA : Note := { id := 1, title := "a", content := "content a", tags := [], archived := false }

/-- Concrete note used by the witnesses. -/
def noteB : Note := { id := 2, title := "b", content := "content b", tags := ["x"], archived := false }

/-- Concrete note used by the witnesses. -/
def noteC : Note := { id := 3, title := "c", content := "content c", tags := [], archived := false }

/-- Concrete application state in Normal mode with `noteB` selected. -/
def baseState : AppState :=
  { all_notes := [noteA, noteB], notes := [noteA, noteB], list_state := some 1,
    status_message := "", script_content_preview := "", input_mode := .Normal,
    filename_input := "", help_message := "", editor_cmd := "nvim",
    active_filter := .All, available_filters := [], filter_list_state := none,
    search_query := "", view_mode := .Active, preview_scroll := 0 }

/-- Concrete storage state holding `noteA` and `noteB`. -/
def dbAB : Db := { rows := [noteA, noteB], next_id := 10 }

/-- Oracle: every external step succeeds. -/
def oracleOk : EditOracle :=
  { write_result := .ok (), cmd_status := .ok true, read_result := .ok "edited content" }

/-- Oracle: the editor runs fine but reading the artifact back fails. -/
def oracleReadFail : EditOracle :=
  { write_result := .ok (), cmd_status := .ok true, read_result := .error "read failure" }

/-- Oracle: the editor process cannot be launched. -/
def oracleLaunchFail : EditOracle :=
  { write_result := .ok (), cmd_status := .error "spawn failure", read_result := .ok "x" }

/-- Oracle: the editor exits with a non-zero status. -/
def oracleExitNonzero : EditOracle :=
  { write_result := .ok (), cmd_status := .ok false, read_result := .ok "x" }

theorem insertSorted_perm (le : α → α → Bool) (a : α) (l : List α) :
    (insertSorted le a l).Perm (a :: l) := by
  induction l with
  | nil => simp [insertSorted]
  | cons b bs ih =>
    simp only [insertSorted]
    split
    · exact List.Perm.refl _
    · exact (ih.cons b).trans (List.Perm.swap a b bs)

theorem stableSort_perm (le : α → α → Bool) (l : List α) :
    (stableSort le l).Perm l := by
  induction l with
  | nil => simp [stableSort]
  | cons a as ih =>
    simp only [stableSort]
    exact (insertSorted_perm le a (stableSort le as)).trans (ih.cons a)

theorem update_preview_list_state (s : AppState) :
    (update_preview s).list_state = s.list_state := by
  cases h : get_selected_note s <;> simp [update_preview, h]

theorem update_preview_notes (s : AppState) :
    (update_preview s).notes = s.notes := by
  cases h : get_selected_note s <;> simp [update_preview, h]

theorem update_preview_all_notes (s : AppState) :
    (update_preview s).all_notes = s.all_notes := by
  cases h : get_selected_note s <;> simp [update_preview, h]

theorem update_preview_status (s : AppState) :
    (update_preview s).status_message = s.status_message := by
  cases h : get_selected_note s <;> simp [update_preview, h]

theorem update_preview_input_mode (s : AppState) :
    (update_preview s).input_mode = s.input_mode := by
  cases h : get_selected_note s <;> simp [update_preview, h]

theorem update_preview_filename (s : AppState) :
    (update_preview s).filename_input = s.filename_input := by
  cases h : get_selected_note s <;> simp [update_preview, h]

theorem refresh_ok_all_notes (l : List Note) (s : AppState) :
    (refresh_notes (.ok l) s).all_notes = l := by
  simp only [refresh_notes, apply_current_filter]
  split <;> [skip; split] <;> simp [update_preview_all_notes]

theorem refresh_ok_notes (l : List Note) (s : AppState) :
    (refresh_notes (.ok l) s).notes =
      stableSort (fun a b => strLe a.title b.title) (l.filter (filterPred s.active_filter)) := by
  simp only [refresh_notes, apply_current_filter]
  split <;> [skip; split] <;> simp [update_preview_notes]

theorem refresh_ok_status (l : List Note) (s : AppState) :
    (refresh_notes (.ok l) s).status_message = s.status_message := by
  simp only [refresh_notes, apply_current_filter]
  split <;> [skip; split] <;> simp [update_preview_status]

theorem refresh_ok_input_mode (l : List Note) (s : AppState) :
    (refresh_notes (.ok l) s).input_mode = s.input_mode := by
  simp only [refresh_notes, apply_current_filter]
  split <;> [skip; split] <;> simp [update_preview_input_mode]

theorem refresh_ok_filename (l : List Note) (s : AppState) :
    (refresh_notes (.ok l) s).filename_input = s.filename_input := by
  simp only [refresh_notes, apply_current_filter]
  split <;> [skip; split] <;> simp [update_preview_filename]

theorem selection_invariant_refresh_ok (l : List Note) (s : AppState) :
    selection_invariant (refresh_notes (.ok l) s) = true := by
  simp only [refresh_notes, apply_current_filter]
  split
  · rename_i h
    simp only [selection_invariant, update_preview_list_state, update_preview_notes]
    cases hs : s.list_state with
    | none => simp [hs] at h
    | some i => simp only [hs] at h ⊢; simpa using h
  · split
    · rename_i hne
      simp only [selection_invariant, update_preview_list_state, update_preview_notes]
      simp only [Bool.not_eq_eq_eq_not, Bool.not_true] at hne
      simp [List.isEmpty_eq_false] at hne
      simp [List.length_pos_iff_ne_nil.mpr hne]
    · rename_i hne
      simp only [selection_invariant, update_preview_list_state, update_preview_notes]
      simp only [Bool.not_eq_true, Bool.not_eq_false] at hne
      simpa using hne

theorem selection_invariant_editFlow (o : EditOracle) (s : AppState) (db : Db)
    (h : selection_invariant s = true) :
    selection_invariant (edit_note_in_external_editor o s db).app = true := by
  unfold edit_note_in_external_editor
  cases hsel : get_selected_note s with
  | none => simpa using h
  | some n =>
    cases hw : o.write_result with
    | error e => simpa using h
    | ok u =>
      simp only []
      split
      · cases hr : o.read_result with
        | error e => simpa using h
        | ok c => simp [update_note_content, get_all_notes, selection_invariant_refresh_ok]
      · simp [get_all_notes, selection_invariant_refresh_ok]

theorem selection_invariant_update_preview (s : AppState) :
    selection_invariant (update_preview s) = selection_invariant s := by
  unfold selection_invariant
  rw [update_preview_list_state, update_preview_notes]

theorem selection_invariant_input_mode (s : AppState) (m : InputMode) :
    selection_invariant { s with input_mode := m } = selection_invariant s := rfl

theorem selection_invariant_select (s : AppState) (i : Nat) (h : i < s.notes.length) :
    selection_invariant { s with list_state := some i } = true := by
  simp [selection_invariant, h]

theorem findIdx?_lt_length {l : List α} {p : α → Bool} {i : Nat}
    (h : l.findIdx? p = some i) : i < l.length :=
  (List.findIdx?_eq_some_iff_findIdx_eq.mp h).1

theorem selInv_handleEditingFilename (o : EditOracle) (s : AppState) (db : Db)
    (h : selection_invariant s = true) :
    selection_invariant (handleEditingFilename o ⟨.Enter, false⟩ s db).app = true := by
  unfold handleEditingFilename
  simp only []
  split
  · simpa [set_status, selection_invariant] using h
  · cases hc : create_note db (rustTrim s.filename_input) with
    | error e => simpa [set_status, selection_invariant] using h
    | ok db1 =>
      simp only []
      split
      · rename_i idx hidx
        split
        · rename_i e hret
          exact selection_invariant_editFlow o _ db1
            (by rw [selection_invariant_update_preview]
                exact selection_invariant_select _ _ (findIdx?_lt_length hidx))
        · rename_i hret
          rw [selection_invariant_input_mode]
          exact selection_invariant_editFlow o _ db1
            (by rw [selection_invariant_update_preview]
                exact selection_invariant_select _ _ (findIdx?_lt_length hidx))
      · rw [selection_invariant_input_mode]
        exact selection_invariant_refresh_ok _ _

theorem selInv_handleRenaming (s : AppState) (db : Db)
    (h : selection_invariant s = true) :
    selection_invariant (handleRenaming ⟨.Enter, false⟩ s db).app = true := by
  unfold handleRenaming
  simp only []
  split
  · simpa [set_status, selection_invariant] using h
  · cases hsel : get_selected_note s with
    | none => simpa [selection_invariant] using h
    | some n =>
      simp only []
      cases hr : rename_note db n.id (rustTrim s.filename_input) with
      | error e => simpa [set_status, selection_invariant] using h
      | ok db2 =>
        simp only []
        split
        · rename_i idx hidx
          rw [selection_invariant_input_mode]
          exact selection_invariant_select _ _ (findIdx?_lt_length hidx)
        · rw [selection_invariant_input_mode]
          exact selection_invariant_refresh_ok _ _

theorem selInv_handleConfirmingDelete (s : AppState) (db : Db)
    (h : selection_invariant s = true) :
    selection_invariant (handleConfirmingDelete ⟨.Char 'y', false⟩ s db).app = true := by
  unfold handleConfirmingDelete
  simp only []
  cases hsel : get_selected_note s with
  | none => simpa [selection_invariant] using h
  | some n =>
    simp only [delete_note]
    rw [selection_invariant_input_mode]
    exact selection_invariant_refresh_ok _ _

/-- C1: after every refresh of the note list, and hence after every
create/rename/delete confirmation dispatched through `handle_key_event`,
the selection index is `none` iff the displayed notes list is empty, and
otherwise a valid index into it. -/
theorem c1_selection_invariant :
    (∀ (l : List Note) (s : AppState),
      selection_invariant (refresh_notes (.ok l) s) = true) ∧
    (∀ (o : EditOracle) (s : AppState) (db : Db), selection_invariant s = true →
      selection_invariant ((handle_key_event o ⟨.Enter, false⟩
        { s with input_mode := .EditingFilename } db).app) = true ∧
      selection_invariant ((handle_key_event o ⟨.Enter, false⟩
        { s with input_mode := .RenamingScript } db).app) = true ∧
      selection_invariant ((handle_key_event o ⟨.Char 'y', false⟩
        { s with input_mode := .ConfirmingDelete } db).app) = true) := by
  refine ⟨selection_invariant_refresh_ok, fun o s db h => ⟨?_, ?_, ?_⟩⟩
  · exact selInv_handleEditingFilename o _ db h
  · exact selInv_handleRenaming _ db h
  · exact selInv_handleConfirmingDelete _ db h

/-- Witness for C1 at a concrete state, list and storage. -/
theorem c1_selection_invariant_witness :
    selection_invariant (refresh_notes (.ok [noteA, noteC]) baseState) = true ∧
    selection_invariant ((handle_key_event oracleOk ⟨.Char 'y', false⟩
      { baseState with input_mode := .ConfirmingDelete } dbAB).app) = true := by
  constructor
  · exact c1_selection_invariant.1 [noteA, noteC] baseState
  · exact (c1_selection_invariant.2 oracleOk baseState dbAB (by decide)).2.2

theorem refresh_ok_list_state (l : List Note) (s : AppState) :
    (refresh_notes (.ok l) s).list_state =
      (let L := stableSort (fun a b => strLe a.title b.title)
        (l.filter (filterPred s.active_filter))
       match s.list_state with
       | some i => if i < L.length then some i else if L.isEmpty then none else some 0
       | none => if L.isEmpty then none else some 0) := by
  simp only [refresh_notes, apply_current_filter]
  rw [update_preview_list_state]
  cases hs : s.list_state with
  | none =>
    simp only [hs]
    split
    · simp_all
    · split <;> simp_all
  | some i =>
    simp only [hs]
    split
    · rename_i hvalid
      simp only [decide_eq_true_eq] at hvalid
      simp [hvalid, hs]
    · rename_i hvalid
      simp only [decide_eq_true_eq] at hvalid
      rw [if_neg hvalid]
      split <;> simp_all

/-- Counterexample to C3: in `baseState` the selected note is `noteB`
(id 2).  After a refresh that fetches `[noteA, noteC]`, `noteB` is gone
from the displayed list, yet the selection is neither reset to index 0
nor cleared: the stale index 1 is kept and now denotes `noteC`. -/
theorem c3_counterexample :
    get_selected_note baseState = some noteB ∧
    (refresh_notes (.ok [noteA, noteC]) baseState).notes.all
      (fun n => n.id ≠ noteB.id) = true ∧
    (refresh_notes (.ok [noteA, noteC]) baseState).list_state = some 1 ∧
    get_selected_note (refresh_notes (.ok [noteA, noteC]) baseState) = some noteC := by
  decide

/-- C3 (amended): on refresh, a previous selection index that is still in
bounds for the new displayed list is kept unchanged — even when it now
denotes a different note than before; only an out-of-bounds or absent
previous selection is reset, to index 0 if the new list is nonempty and to
`none` otherwise. -/
theorem c3_amended_refresh_selection (l : List Note) (s : AppState) :
    (∀ i, s.list_state = some i → i < (refresh_notes (.ok l) s).notes.length →
      (refresh_notes (.ok l) s).list_state = some i) ∧
    ((s.list_state = none ∨ ∃ i, s.list_state = some i ∧
        (refresh_notes (.ok l) s).notes.length ≤ i) →
      (refresh_notes (.ok l) s).list_state =
        (if (refresh_notes (.ok l) s).notes.isEmpty then none else some 0)) := by
  constructor
  · intro i hsi hlt
    rw [refresh_ok_notes] at hlt
    rw [refresh_ok_list_state]
    simp only [hsi]
    simp [hlt]
  · intro hd
    rw [refresh_ok_notes, refresh_ok_list_state]
    rcases hd with hnone | ⟨i, hsome, hle⟩
    · simp [hnone]
    · rw [refresh_ok_notes] at hle
      simp only [hsome]
      simp [Nat.not_lt.mpr hle]

/-- Witness for the amended C3 on concrete inputs: a kept in-bounds index
and a reset out-of-bounds index. -/
theorem c3_amended_refresh_selection_witness :
    (refresh_notes (.ok [noteA, noteC]) baseState).list_state = some 1 ∧
    (refresh_notes (.ok [noteC]) baseState).list_state =
      (if (refresh_notes (.ok [noteC]) baseState).notes.isEmpty then none else some 0) := by
  constructor
  · exact (c3_amended_refresh_selection [noteA, noteC] baseState).1 1 rfl (by decide)
  · exact (c3_amended_refresh_selection [noteC] baseState).2
      (Or.inr ⟨1, rfl, by decide⟩)

/-- C4: when the storage rename fails (e.g. duplicate title), the status
message carries the storage error text, `all_notes` and the displayed
`notes` are left unchanged (no refresh happens), the storage state is
untouched, and the mode returns to Normal. -/
theorem c4_rename_error (o : EditOracle) (s : AppState) (db : Db) (n : Note) (e : String)
    (hm : s.input_mode = .RenamingScript)
    (hsel : get_selected_note s = some n)
    (hne : rustTrim s.filename_input ≠ "")
    (herr : rename_note db n.id (rustTrim s.filename_input) = .error e) :
    (handle_key_event o ⟨.Enter, false⟩ s db).app.status_message
      = "Error renaming note: " ++ e ∧
    (handle_key_event o ⟨.Enter, false⟩ s db).app.all_notes = s.all_notes ∧
    (handle_key_event o ⟨.Enter, false⟩ s db).app.notes = s.notes ∧
    (handle_key_event o ⟨.Enter, false⟩ s db).app.input_mode = .Normal ∧
    (handle_key_event o ⟨.Enter, false⟩ s db).db = db := by
  simp [handle_key_event, hm, handleRenaming, hne, hsel, herr, set_status]

/-- Witness for C4: renaming `noteB` to the already-taken title `"a"`. -/
theorem c4_rename_error_witness :
    (handle_key_event oracleOk ⟨.Enter, false⟩
      { baseState with input_mode := .RenamingScript, filename_input := " a " } dbAB).app.status_message
      = "Error renaming note: " ++ dupTitleError ∧
    (handle_key_event oracleOk ⟨.Enter, false⟩
      { baseState with input_mode := .RenamingScript, filename_input := " a " } dbAB).app.input_mode
      = .Normal :=
  by
  have h := c4_rename_error oracleOk
    { baseState with input_mode := .RenamingScript, filename_input := " a " }
    dbAB noteB dupTitleError rfl (by decide) (by decide) rfl
  exact ⟨h.1, h.2.2.2.1⟩

/-- C5: `apply_current_filter` with `Specific t` yields exactly the notes
of `all_notes` whose tag list contains `t` (as a multiset — the displayed
order is the title sort); `Untagged` yields exactly the notes with an
empty tag list; `All` yields the full set. -/
theorem c5_filter_exact (s : AppState) :
    (∀ t, s.active_filter = .Specific t →
      (apply_current_filter s).notes.Perm
        (s.all_notes.filter (fun n => n.tags.contains t))) ∧
    (s.active_filter = .Untagged →
      (apply_current_filter s).notes.Perm
        (s.all_notes.filter (fun n => n.tags.isEmpty))) ∧
    (s.active_filter = .All →
      (apply_current_filter s).notes.Perm s.all_notes) := by
  refine ⟨fun t ht => ?_, fun ht => ?_, fun ht => ?_⟩ <;>
    simp only [apply_current_filter, ht]
  · exact stableSort_perm _ _
  · exact stableSort_perm _ _
  · rw [show List.filter (filterPred .All) s.all_notes = s.all_notes from
      List.filter_eq_self.mpr (fun a _ => rfl)]
    exact stableSort_perm _ _

/-- Witness for C5 with each filter variant on a concrete state. -/
theorem c5_filter_exact_witness :
    (apply_current_filter { baseState with active_filter := .Specific "x" }).notes.Perm
      (({ baseState with active_filter := TagFilter.Specific "x" } : AppState).all_notes.filter
        (fun n => n.tags.contains "x")) ∧
    (apply_current_filter { baseState with active_filter := .Untagged }).notes.Perm
      (({ baseState with active_filter := TagFilter.Untagged } : AppState).all_notes.filter
        (fun n => n.tags.isEmpty)) ∧
    (apply_current_filter { baseState with active_filter := .All }).notes.Perm
      ({ baseState with active_filter := TagFilter.All } : AppState).all_notes :=
  ⟨(c5_filter_exact _).1 "x" rfl, (c5_filter_exact _).2.1 rfl, (c5_filter_exact _).2.2 rfl⟩

/-- C6: confirming a tag edit parses the buffer by splitting on commas,
trimming each piece and dropping empty pieces, and passes exactly that
list to the storage tag update; the input "alpha, beta ,, gamma" parses
to ["alpha", "beta", "gamma"]. -/
theorem c6_tags_update (o : EditOracle) (s : AppState) (db : Db) (n : Note)
    (hm : s.input_mode = .EditingTags)
    (hsel : get_selected_note s = some n) :
    (handle_key_event o ⟨.Enter, false⟩ s db).db.rows =
      db.rows.map (fun m => if m.id = n.id
        then { m with tags := parse_tags_input s.filename_input } else m) ∧
    parse_tags_input "alpha, beta ,, gamma" = ["alpha", "beta", "gamma"] := by
  constructor
  · simp [handle_key_event, hm, handleEditingTags, hsel, update_note_tags, get_all_notes]
  · decide

/-- Witness for C6: the tag edit applied to `noteB` with the example
input. -/
theorem c6_tags_update_witness :
    (handle_key_event oracleOk ⟨.Enter, false⟩
      { baseState with input_mode := .EditingTags, filename_input := "alpha, beta ,, gamma" }
      dbAB).db.rows =
      dbAB.rows.map (fun m => if m.id = noteB.id
        then { m with tags := parse_tags_input "alpha, beta ,, gamma" } else m) ∧
    parse_tags_input "alpha, beta ,, gamma" = ["alpha", "beta", "gamma"] :=
  c6_tags_update oracleOk _ dbAB noteB rfl (by decide)

/-- C7: selection movement wraps circularly — `next` from the last index
selects index 0, `previous` from index 0 selects the last index — and both
are no-ops on an empty displayed list. -/
theorem c7_selection_wrap (s : AppState) :
    (s.notes.isEmpty = true → next s = s ∧ previous s = s) ∧
    (s.notes.isEmpty = false → s.list_state = some (s.notes.length - 1) →
      (next s).list_state = some 0) ∧
    (s.notes.isEmpty = false → s.list_state = some 0 →
      (previous s).list_state = some (s.notes.length - 1)) := by
  refine ⟨fun h => ?_, fun h hs => ?_, fun h hs => ?_⟩
  · constructor <;> simp [next, previous, h]
  · simp [next, h, hs, update_preview_list_state]
  · simp [previous, h, hs, update_preview_list_state]

/-- Witness for C7 on concrete states: empty list no-op, wrap forward from
the last index, wrap backward from index 0. -/
theorem c7_selection_wrap_witness :
    (next { baseState with notes := [] } = { baseState with notes := [] } ∧
     previous { baseState with notes := [] } = { baseState with notes := [] }) ∧
    (next baseState).list_state = some 0 ∧
    (previous { baseState with list_state := some 0 }).list_state =
      some (({ baseState with list_state := some 0 } : AppState).notes.length - 1) :=
  ⟨(c7_selection_wrap _).1 (by decide),
   (c7_selection_wrap baseState).2.1 (by decide) (by decide),
   (c7_selection_wrap _).2.2 (by decide) (by decide)⟩

/-- Counterexample to C8: in EditingFilename mode with pending buffer
"abc", Esc returns to Normal but the buffer is NOT discarded — it still
holds "abc" (it is only re-initialized when a text mode is next entered). -/
theorem c8_counterexample :
    (handle_key_event oracleOk ⟨.Esc, false⟩
      { baseState with input_mode := .EditingFilename, filename_input := "abc" }
      dbAB).app.input_mode = .Normal ∧
    (handle_key_event oracleOk ⟨.Esc, false⟩
      { baseState with input_mode := .EditingFilename, filename_input := "abc" }
      dbAB).app.filename_input = "abc" ∧
    ("abc" : String) ≠ "" := by
  refine ⟨by decide, by decide, by decide⟩

/-- C8 (amended): Esc in every text-input mode returns to Normal; the
Searching mode clears its query buffer, while CreatingNote/EditingFilename,
RenamingNote and EditingTags leave the content of the shared text buffer in
place (it is overwritten on the next entry into a text-input mode). -/
theorem c8_amended_esc (o : EditOracle) (s : AppState) (db : Db) :
    (s.input_mode = .EditingFilename →
      (handle_key_event o ⟨.Esc, false⟩ s db).app.input_mode = .Normal ∧
      (handle_key_event o ⟨.Esc, false⟩ s db).app.filename_input = s.filename_input) ∧
    (s.input_mode = .RenamingScript →
      (handle_key_event o ⟨.Esc, false⟩ s db).app.input_mode = .Normal ∧
      (handle_key_event o ⟨.Esc, false⟩ s db).app.filename_input = s.filename_input) ∧
    (s.input_mode = .EditingTags →
      (handle_key_event o ⟨.Esc, false⟩ s db).app.input_mode = .Normal ∧
      (handle_key_event o ⟨.Esc, false⟩ s db).app.filename_input = s.filename_input) ∧
    (s.input_mode = .Searching →
      (handle_key_event o ⟨.Esc, false⟩ s db).app.input_mode = .Normal ∧
      (handle_key_event o ⟨.Esc, false⟩ s db).app.search_query = "") := by
  refine ⟨fun h => ?_, fun h => ?_, fun h => ?_, fun h => ?_⟩
  · constructor <;>
      simp [handle_key_event, h, handleEditingFilename, set_status]
  · constructor <;>
      simp [handle_key_event, h, handleRenaming, set_status]
  · constructor <;>
      simp [handle_key_event, h, handleEditingTags, set_status]
  · constructor <;>
      simp only [handle_key_event, h, handleSearching, set_status, apply_current_filter] <;>
      split <;> simp

/-- Witness for the amended C8 at concrete states in EditingFilename and
Searching mode. -/
theorem c8_amended_esc_witness :
    ((handle_key_event oracleOk ⟨.Esc, false⟩
        { baseState with input_mode := .EditingFilename, filename_input := "abc" }
        dbAB).app.input_mode = .Normal ∧
     (handle_key_event oracleOk ⟨.Esc, false⟩
        { baseState with input_mode := .EditingFilename, filename_input := "abc" }
        dbAB).app.filename_input = "abc") ∧
    ((handle_key_event oracleOk ⟨.Esc, false⟩
        { baseState with input_mode := .Searching, search_query := "qq" }
        dbAB).app.input_mode = .Normal ∧
     (handle_key_event oracleOk ⟨.Esc, false⟩
        { baseState with input_mode := .Searching, search_query := "qq" }
        dbAB).app.search_query = "") :=
  ⟨(c8_amended_esc oracleOk
      { baseState with input_mode := .EditingFilename, filename_input := "abc" } dbAB).1 rfl,
   (c8_amended_esc oracleOk
      { baseState with input_mode := .Searching, search_query := "qq" } dbAB).2.2.2 rfl⟩

/-- C9: when the editor exits with non-zero status or fails to launch, no
storage content update is issued (the storage state is untouched) and the
status message reports the failed edit. -/
theorem c9_editor_failure (o : EditOracle) (s : AppState) (db : Db) (n : Note)
    (hsel : get_selected_note s = some n)
    (hw : o.write_result = .ok ())
    (hfail : o.cmd_status = .ok false ∨ ∃ e, o.cmd_status = .error e) :
    (edit_note_in_external_editor o s db).db = db ∧
    (edit_note_in_external_editor o s db).app.status_message = "Editor exited with error." := by
  have hop : open_editor o.cmd_status = false := by
    rcases hfail with h | ⟨e, h⟩ <;> simp [open_editor, h]
  unfold edit_note_in_external_editor
  simp [hsel, hw, hop, get_all_notes, refresh_ok_status, set_status]

/-- Witness for C9: a non-zero editor exit on a concrete state, and a
launch failure on the same state. -/
theorem c9_editor_failure_witness :
    ((edit_note_in_external_editor oracleExitNonzero baseState dbAB).db = dbAB ∧
     (edit_note_in_external_editor oracleExitNonzero baseState dbAB).app.status_message =
       "Editor exited with error.") ∧
    ((edit_note_in_external_editor oracleLaunchFail baseState dbAB).db = dbAB ∧
     (edit_note_in_external_editor oracleLaunchFail baseState dbAB).app.status_message =
       "Editor exited with error.") :=
  ⟨c9_editor_failure oracleExitNonzero baseState dbAB noteB rfl rfl (Or.inl rfl),
   c9_editor_failure oracleLaunchFail baseState dbAB noteB rfl rfl
     (Or.inr ⟨"spawn failure", rfl⟩)⟩

/-- Counterexample to C2: with a selected note, a successful write and a
successful editor run, a failing read-back of the temporary artifact makes
the flow return early through the ? operator: the artifact was created but
fs remove_file is never reached — the temp file is not deleted on this
exit path. -/
theorem c2_counterexample :
    (edit_note_in_external_editor oracleReadFail baseState dbAB).temp_written = true ∧
    (edit_note_in_external_editor oracleReadFail baseState dbAB).temp_removed = false ∧
    (edit_note_in_external_editor oracleReadFail baseState dbAB).ret = .error "read failure" := by
  refine ⟨by decide, by decide, rfl⟩

/-- C2 (amended): the temporary artifact is deleted before the flow
returns on the editor-success-with-successful-read-back path, the
non-zero-exit path and the launch-failure path; on a failure to read the
artifact back, the io error propagates and the artifact is NOT deleted. -/
theorem c2_amended_cleanup (o : EditOracle) (s : AppState) (db : Db) (n : Note)
    (hsel : get_selected_note s = some n)
    (hw : o.write_result = .ok ()) :
    ((open_editor o.cmd_status = false ∨ ∃ c, o.read_result = .ok c) →
      (edit_note_in_external_editor o s db).temp_removed = true) ∧
    ((open_editor o.cmd_status = true ∧ ∃ e, o.read_result = .error e) →
      (edit_note_in_external_editor o s db).temp_removed = false ∧
      ∃ e, (edit_note_in_external_editor o s db).ret = .error e) := by
  constructor
  · rintro (hop | ⟨c, hr⟩)
    · simp [edit_note_in_external_editor, hsel, hw, hop]
    · unfold edit_note_in_external_editor
      simp only [hsel, hw]
      split
      · simp [hr, update_note_content]
      · simp
  · rintro ⟨hop, e, hr⟩
    unfold edit_note_in_external_editor
    simp [hsel, hw, hop, hr]

/-- Witness for the amended C2: cleanup reached on a non-zero editor exit
and on the read-success path, skipped on the read-failure path. -/
theorem c2_amended_cleanup_witness :
    (edit_note_in_external_editor oracleExitNonzero baseState dbAB).temp_removed = true ∧
    (edit_note_in_external_editor oracleOk baseState dbAB).temp_removed = true ∧
    ((edit_note_in_external_editor oracleReadFail baseState dbAB).temp_removed = false ∧
      ∃ e, (edit_note_in_external_editor oracleReadFail baseState dbAB).ret = .error e) :=
  ⟨(c2_amended_cleanup oracleExitNonzero baseState dbAB noteB rfl rfl).1 (Or.inl rfl),
   (c2_amended_cleanup oracleOk baseState dbAB noteB rfl rfl).1 (Or.inr ⟨"edited content", rfl⟩),
   (c2_amended_cleanup oracleReadFail baseState dbAB noteB rfl rfl).2 ⟨rfl, "read failure", rfl⟩⟩

theorem flowRetMap_ne_false (x : Except String Unit) :
    (match x with
     | .ok () => (.ok true : Except String Bool)
     | .error e => .error e) ≠ .ok false := by
  cases x <;> simp

theorem ret_handleSearching (key : KeyEvent) (s : AppState) (db : Db) :
    (handleSearching key s db).ret = .ok true := by
  cases hk : key.code <;> simp only [handleSearching, hk] <;> (repeat' split) <;> rfl

theorem ret_handleEditingTags (key : KeyEvent) (s : AppState) (db : Db) :
    (handleEditingTags key s db).ret = .ok true := by
  cases hk : key.code <;> simp only [handleEditingTags, hk] <;> (repeat' split) <;> rfl

theorem ret_handleConfirmingDelete (key : KeyEvent) (s : AppState) (db : Db) :
    (handleConfirmingDelete key s db).ret = .ok true := by
  cases hk : key.code <;> simp only [handleConfirmingDelete, hk] <;> (repeat' split) <;> rfl

theorem ret_handleRenaming (key : KeyEvent) (s : AppState) (db : Db) :
    (handleRenaming key s db).ret = .ok true := by
  cases hk : key.code <;> simp only [handleRenaming, hk] <;> (repeat' split) <;> rfl

theorem ret_handleSelectingTagFilter (key : KeyEvent) (s : AppState) (db : Db) :
    (handleSelectingTagFilter key s db).ret = .ok true := by
  cases hk : key.code <;> simp only [handleSelectingTagFilter, hk] <;> (repeat' split) <;> rfl

theorem ret_handleShowHelp (key : KeyEvent) (s : AppState) (db : Db) :
    (handleShowHelp key s db).ret = .ok true := by
  cases hk : key.code <;> simp only [handleShowHelp, hk] <;> (repeat' split) <;> rfl

theorem ret_handleEditingFilename (o : EditOracle) (key : KeyEvent) (s : AppState) (db : Db) :
    (handleEditingFilename o key s db).ret ≠ .ok false := by
  cases hk : key.code with
  | Enter =>
    simp only [handleEditingFilename, hk]
    split
    · simp
    · cases hc : create_note db (rustTrim s.filename_input) with
      | error e => simp
      | ok db1 =>
        simp only []
        split
        · split
          · simp
          · simp
        · simp
  | Esc => simp [handleEditingFilename, hk]
  | Backspace => simp [handleEditingFilename, hk]
  | Char c => simp [handleEditingFilename, hk]
  | Up => simp [handleEditingFilename, hk]
  | Down => simp [handleEditingFilename, hk]
  | Other => simp [handleEditingFilename, hk]

theorem ret_mk (a : AppState) (d : Db) (x : Except String Bool) :
    (HandleResult.mk a d x).ret = x := rfl

theorem ret_handleNormal (o : EditOracle) (key : KeyEvent) (s : AppState) (db : Db) :
    (handleNormal o key s db).ret = .ok false ↔ key.code = .Char 'q' := by
  cases hk : key.code with
  | Char c =>
    simp only [handleNormal, hk]
    by_cases h1 : c = 'q'
    · rw [if_pos h1]; simp [h1]
    rw [if_neg h1]
    by_cases h2 : c = 'j'
    · rw [if_pos h2]; simp [h1]
    rw [if_neg h2]
    by_cases h3 : c = 'k'
    · rw [if_pos h3]; simp [h1]
    rw [if_neg h3]
    by_cases h4 : c = 'e'
    · rw [if_pos h4]
      cases hr : (edit_note_in_external_editor o s db).ret <;> simp [h1]
    rw [if_neg h4]
    by_cases h5 : c = 'a'
    · rw [if_pos h5]; simp [h1]
    rw [if_neg h5]
    by_cases h6 : c = 'd'
    · rw [if_pos h6]; simp [h1]
    rw [if_neg h6]
    by_cases h7 : c = 'r'
    · rw [if_pos h7]; simp [h1]
    rw [if_neg h7]
    by_cases h8 : c = 'x'
    · rw [if_pos h8]
      cases hsel : get_selected_note s with
      | none => simp [h1]
      | some n => simp [update_archive_status, h1]
    rw [if_neg h8]
    by_cases h9 : c = 'v'
    · rw [if_pos h9]; simp [h1]
    rw [if_neg h9]
    by_cases h10 : c = 't'
    · rw [if_pos h10]; simp [h1]
    rw [if_neg h10]
    by_cases h11 : c = 'T'
    · rw [if_pos h11]; simp [h1]
    rw [if_neg h11]
    by_cases h12 : c = '/'
    · rw [if_pos h12]; simp [h1]
    rw [if_neg h12]
    by_cases h13 : c = '?'
    · rw [if_pos h13]; simp [h1]
    rw [if_neg h13]
    simp [h1]
  | Enter =>
    simp only [handleNormal, hk]
    cases hr : (edit_note_in_external_editor o s db).ret <;> simp [hr]
  | Esc => simp [handleNormal, hk]
  | Backspace => simp [handleNormal, hk]
  | Up => simp [handleNormal, hk]
  | Down => simp [handleNormal, hk]
  | Other => simp [handleNormal, hk]

/-- C10: a key event that lands in the fall-through arm of the current mode
leaves the application state, the storage state and the loop unchanged
(`Ok(true)` is returned); and `handle_key_event` returns `Ok(false)` (quit)
exactly for the `'q'` key in Normal mode. -/
theorem c10_fallthrough_frame (o : EditOracle) (key : KeyEvent) (s : AppState) (db : Db) :
    (is_fallthrough s.input_mode key = true →
      handle_key_event o key s db = ⟨s, db, .ok true⟩) ∧
    ((handle_key_event o key s db).ret = .ok false ↔
      s.input_mode = .Normal ∧ key.code = .Char 'q') := by
  constructor
  · intro hf
    cases hm : s.input_mode with
    | Normal =>
      cases hk : key.code with
      | Char c =>
        simp only [hm, hk, is_fallthrough] at hf
        simp only [Bool.not_eq_eq_eq_not, Bool.not_true, decide_eq_false_iff_not] at hf
        push_neg at hf
        obtain ⟨n1, n2, n3, n4, n5, n6, n7, n8, n9, n10, n11, n12, n13⟩ := hf
        simp only [handle_key_event, hm, handleNormal, hk]
        rw [if_neg n1, if_neg n2, if_neg n3, if_neg n4, if_neg n5, if_neg n6, if_neg n7,
          if_neg n8, if_neg n9, if_neg n10, if_neg n11, if_neg n12, if_neg n13]
      | Esc => simp [handle_key_event, hm, handleNormal, hk]
      | Backspace => simp [handle_key_event, hm, handleNormal, hk]
      | Other => simp [handle_key_event, hm, handleNormal, hk]
      | Enter => simp [hm, hk, is_fallthrough] at hf
      | Up => simp [hm, hk, is_fallthrough] at hf
      | Down => simp [hm, hk, is_fallthrough] at hf
    | Searching =>
      cases hk : key.code with
      | Up => simp [handle_key_event, hm, handleSearching, hk]
      | Down => simp [handle_key_event, hm, handleSearching, hk]
      | Other => simp [handle_key_event, hm, handleSearching, hk]
      | Char c => simp [hm, hk, is_fallthrough] at hf
      | Enter => simp [hm, hk, is_fallthrough] at hf
      | Esc => simp [hm, hk, is_fallthrough] at hf
      | Backspace => simp [hm, hk, is_fallthrough] at hf
    | EditingFilename =>
      cases hk : key.code with
      | Up => simp [handle_key_event, hm, handleEditingFilename, hk]
      | Down => simp [handle_key_event, hm, handleEditingFilename, hk]
      | Other => simp [handle_key_event, hm, handleEditingFilename, hk]
      | Char c => simp [hm, hk, is_fallthrough] at hf
      | Enter => simp [hm, hk, is_fallthrough] at hf
      | Esc => simp [hm, hk, is_fallthrough] at hf
      | Backspace => simp [hm, hk, is_fallthrough] at hf
    | EditingTags =>
      cases hk : key.code with
      | Up => simp [handle_key_event, hm, handleEditingTags, hk]
      | Down => simp [handle_key_event, hm, handleEditingTags, hk]
      | Other => simp [handle_key_event, hm, handleEditingTags, hk]
      | Char c => simp [hm, hk, is_fallthrough] at hf
      | Enter => simp [hm, hk, is_fallthrough] at hf
      | Esc => simp [hm, hk, is_fallthrough] at hf
      | Backspace => simp [hm, hk, is_fallthrough] at hf
    | RenamingScript =>
      cases hk : key.code with
      | Up => simp [handle_key_event, hm, handleRenaming, hk]
      | Down => simp [handle_key_event, hm, handleRenaming, hk]
      | Other => simp [handle_key_event, hm, handleRenaming, hk]
      | Char c => simp [hm, hk, is_fallthrough] at hf
      | Enter => simp [hm, hk, is_fallthrough] at hf
      | Esc => simp [hm, hk, is_fallthrough] at hf
      | Backspace => simp [hm, hk, is_fallthrough] at hf
    | ConfirmingDelete =>
      cases hk : key.code with
      | Char c =>
        simp only [hm, hk, is_fallthrough] at hf
        simp only [Bool.not_eq_eq_eq_not, Bool.not_true, decide_eq_false_iff_not] at hf
        push_neg at hf
        obtain ⟨n1, n2⟩ := hf
        simp only [handle_key_event, hm, handleConfirmingDelete, hk]
        rw [if_neg n1, if_neg n2]
      | Enter => simp [handle_key_event, hm, handleConfirmingDelete, hk]
      | Backspace => simp [handle_key_event, hm, handleConfirmingDelete, hk]
      | Up => simp [handle_key_event, hm, handleConfirmingDelete, hk]
      | Down => simp [handle_key_event, hm, handleConfirmingDelete, hk]
      | Other => simp [handle_key_event, hm, handleConfirmingDelete, hk]
      | Esc => simp [hm, hk, is_fallthrough] at hf
    | SelectingTagFilter =>
      cases hk : key.code with
      | Char c =>
        simp only [hm, hk, is_fallthrough] at hf
        simp only [Bool.not_eq_eq_eq_not, Bool.not_true, decide_eq_false_iff_not] at hf
        push_neg at hf
        obtain ⟨n1, n2, n3⟩ := hf
        simp only [handle_key_event, hm, handleSelectingTagFilter, hk]
        rw [if_neg n1, if_neg n2, if_neg n3]
      | Backspace => simp [handle_key_event, hm, handleSelectingTagFilter, hk]
      | Up => simp [handle_key_event, hm, handleSelectingTagFilter, hk]
      | Down => simp [handle_key_event, hm, handleSelectingTagFilter, hk]
      | Other => simp [handle_key_event, hm, handleSelectingTagFilter, hk]
      | Enter => simp [hm, hk, is_fallthrough] at hf
      | Esc => simp [hm, hk, is_fallthrough] at hf
    | ShowHelp =>
      cases hk : key.code with
      | Char c =>
        simp only [hm, hk, is_fallthrough] at hf
        simp only [Bool.not_eq_eq_eq_not, Bool.not_true, decide_eq_false_iff_not] at hf
        simp only [handle_key_event, hm, handleShowHelp, hk]
        rw [if_neg hf]
      | Enter => simp [handle_key_event, hm, handleShowHelp, hk]
      | Backspace => simp [handle_key_event, hm, handleShowHelp, hk]
      | Up => simp [handle_key_event, hm, handleShowHelp, hk]
      | Down => simp [handle_key_event, hm, handleShowHelp, hk]
      | Other => simp [handle_key_event, hm, handleShowHelp, hk]
      | Esc => simp [hm, hk, is_fallthrough] at hf
  · cases hm : s.input_mode with
    | Normal => simp [handle_key_event, hm, ret_handleNormal]
    | Searching => simp [handle_key_event, hm, ret_handleSearching]
    | EditingFilename =>
      simp only [handle_key_event, hm]
      simp [ret_handleEditingFilename o key s db]
    | EditingTags => simp [handle_key_event, hm, ret_handleEditingTags]
    | ConfirmingDelete => simp [handle_key_event, hm, ret_handleConfirmingDelete]
    | RenamingScript => simp [handle_key_event, hm, ret_handleRenaming]
    | SelectingTagFilter => simp [handle_key_event, hm, ret_handleSelectingTagFilter]
    | ShowHelp => simp [handle_key_event, hm, ret_handleShowHelp]

/-- Witness for C10: a fall-through key (Esc in Normal mode) leaves the
concrete state untouched, and the quit equivalence at the `'q'` key. -/
theorem c10_fallthrough_frame_witness :
    handle_key_event oracleOk ⟨.Esc, false⟩ baseState dbAB =
      ⟨baseState, dbAB, .ok true⟩ ∧
    ((handle_key_event oracleOk ⟨.Char 'q', false⟩ baseState dbAB).ret = .ok false ↔
      (baseState.input_mode = .Normal ∧ (⟨.Char 'q', false⟩ : KeyEvent).code = .Char 'q')) :=
  ⟨(c10_fallthrough_frame oracleOk ⟨.Esc, false⟩ baseState dbAB).1 (by decide),
   (c10_fallthrough_frame oracleOk ⟨.Char 'q', false⟩ baseState dbAB).2⟩
